import Mathlib

/-!
A shallow embedding in Lean 4 of the Reddit-clone engine (src/engine.go) and
proofs of the specified properties.

Modelling conventions, mirroring the Go source:
- Go pointers to long-lived store objects are replaced by stable identifiers
  (user IDs, post IDs, community names), following the design note of the
  spec that external handles are non-owning references.  All User objects
  live in Engine.Users; a *User argument is a user ID, and writes through
  such a pointer are realised as an update of the user with that ID.
  Likewise a *Post argument is a post ID, located inside the unique
  community whose list stores the post (post IDs are unique).
- Go maps are modelled as lists: Engine.Users as a list of Users in
  registration order (RegisterUser allocates ID = len+1, so the list is
  also keyed by ID), Engine.SubReddits as a list of communities in creation
  order (names are unique because CreateSubReddit refuses duplicates), and
  a community membership map as a duplicate-free list of user IDs (the Go
  map stores user.ID as key and the canonical *User as value, so the key
  determines the entry).
- The Mutex and StartTime fields are omitted: every operation below is one
  atomic step (the Go lock serialises operations), and StartTime is only
  used for throughput reporting by the out-of-scope harness.
- Counters that Go only ever increments are Nat; Karma and Votes, which can
  go negative, are Int.
- Comment is a value type in Go ([]Comment slices).  CommentPost builds a
  local Comment, appends a copy of it to post.Comments, and returns a
  pointer to the escaped local; AddReplyToComment does the same with
  parentComment.Replies.  We model the escaped locals explicitly: the field
  Engine.cells is the heap of Comment values that were returned by address,
  and a *Comment handle held by a caller is an index into cells.  A write
  through such a handle (AddReplyToComment) updates the cell, never the
  copies stored inside posts.
-/

namespace RedditClone

/-- User record, as in engine.go (ID, Username, Karma, Actions, Connected). -/
structure User where
  ID : Nat
  Username : String
  Karma : Int
  Actions : Nat
  Connected : Bool

/-- Comment record; recursive because Replies is a list of Comments, so it is
an inductive with explicit projections. AuthorID stands for the *User field. -/
inductive Comment where
  | mk (id : Nat) (authorId : Nat) (content : String) (replies : List Comment)
      (votes : Int)

def Comment.ID : Comment → Nat
  | .mk i _ _ _ _ => i

def Comment.AuthorID : Comment → Nat
  | .mk _ a _ _ _ => a

def Comment.Content : Comment → String
  | .mk _ _ c _ _ => c

def Comment.Replies : Comment → List Comment
  | .mk _ _ _ r _ => r

def Comment.Votes : Comment → Int
  | .mk _ _ _ _ v => v

/-- Writing through a *Comment: append a reply to the Replies slice. -/
def Comment.addReply (c : Comment) (r : Comment) : Comment :=
  match c with
  | .mk i a s rs v => .mk i a s (rs ++ [r]) v

/-- Post record; AuthorID stands for the Author *User field. -/
structure Post where
  ID : Nat
  AuthorID : Nat
  Content : String
  Comments : List Comment
  Votes : Int

/-- Community: name, owned post list, membership (user IDs, the keys of the
Go map SubReddit.Users). -/
structure SubReddit where
  Name : String
  Posts : List Post
  Users : List Nat

/-- Direct message; FromID and ToID stand for the *User fields. -/
structure Message where
  FromID : Nat
  ToID : Nat
  Content : String

/-- The ActionBreakdown map has exactly the four keys installed by NewEngine,
so it is modelled as a record with one field per key. -/
structure ActionBreakdown where
  Posts : Nat
  Comments : Nat
  Votes : Nat
  Messages : Nat

/-- Engine state (engine.go, struct Engine), minus Mutex and StartTime.
cells is the heap of Comment values returned by address, see the header. -/
structure Engine where
  Users : List User
  SubReddits : List SubReddit
  Messages : List Message
  PostID : Nat
  CommentID : Nat
  TotalPosts : Nat
  TotalVotes : Nat
  TotalUpvotes : Nat
  TotalDownvotes : Nat
  TotalMessages : Nat
  TotalActions : Nat
  TotalComments : Nat
  DisconnectedUsers : Nat
  ActionBreakdown : ActionBreakdown
  cells : List Comment

/-- NewEngine: empty store, PostID and CommentID start at 1, all counters 0,
breakdown keys all 0. -/
def NewEngine : Engine where
  Users := []
  SubReddits := []
  Messages := []
  PostID := 1
  CommentID := 1
  TotalPosts := 0
  TotalVotes := 0
  TotalUpvotes := 0
  TotalDownvotes := 0
  TotalMessages := 0
  TotalActions := 0
  TotalComments := 0
  DisconnectedUsers := 0
  ActionBreakdown := ⟨0, 0, 0, 0⟩
  cells := []

/-- user.Actions++ through the *User handle uid. -/
def bumpActions (l : List User) (uid : Nat) : List User :=
  l.map fun u => if u.ID = uid then { u with Actions := u.Actions + 1 } else u

/-- author.Karma += d through the *User handle uid. -/
def bumpKarma (l : List User) (uid : Nat) (d : Int) : List User :=
  l.map fun u => if u.ID = uid then { u with Karma := u.Karma + d } else u

/-- Write through the *SubReddit obtained by name lookup (names are unique,
see the header, so at most one entry matches). -/
def updateSub (subs : List SubReddit) (name : String) (f : SubReddit → SubReddit) :
    List SubReddit :=
  subs.map fun sr => if sr.Name = name then f sr else sr

/-- Write through a *Post handle: update the post with that ID wherever it is
stored (post IDs are unique, so at most one post matches). -/
def updatePost (subs : List SubReddit) (pid : Nat) (f : Post → Post) :
    List SubReddit :=
  subs.map fun sr =>
    { sr with Posts := sr.Posts.map fun p => if p.ID = pid then f p else p }

/-- Dereference a *Post handle: the stored post with that ID, if any. -/
def findPost (subs : List SubReddit) (pid : Nat) : Option Post :=
  ((subs.map fun sr => sr.Posts).flatten).find? fun p => p.ID == pid

/-- Dereference a *User handle on a user list. -/
def findUser (l : List User) (uid : Nat) : Option User :=
  l.find? fun u => u.ID == uid

/-- Whether uid is the ID of a registered user. -/
def hasUser (e : Engine) (uid : Nat) : Bool :=
  (findUser e.Users uid).isSome

/-- Go map assignment m[uid] = user on a membership set: the key set gains
uid; re-joining overwrites the same entry (the value is determined by the
key), so the set is unchanged when uid is present. -/
def insertMember (l : List Nat) (uid : Nat) : List Nat :=
  if uid ∈ l then l else l ++ [uid]

/-- Go delete(m, uid) on a membership set. -/
def removeMember (l : List Nat) (uid : Nat) : List Nat :=
  l.filter fun x => x != uid

/-- Write through a *Comment handle (an index into Engine.cells). -/
def updateCell (cells : List Comment) (i : Nat) (f : Comment → Comment) :
    List Comment :=
  match cells, i with
  | [], _ => []
  | c :: cs, 0 => f c :: cs
  | c :: cs, n + 1 => c :: updateCell cs n f

/-- RegisterUser (engine.go): id = len(Users)+1, karma 0, actions 0,
connected; inserted into the store.  Returns the new user. -/
def RegisterUser (e : Engine) (username : String) : Engine × User :=
  let id := e.Users.length + 1
  let user : User := ⟨id, username, 0, 0, true⟩
  ({ e with Users := e.Users ++ [user] }, user)

/-- CreateSubReddit (engine.go): nil on duplicate name, otherwise a fresh
community with empty posts and membership. -/
def CreateSubReddit (e : Engine) (name : String) : Engine × Option SubReddit :=
  match e.SubReddits.find? (fun sr => sr.Name == name) with
  | some _ => (e, none)
  | none =>
    let subReddit : SubReddit := ⟨name, [], []⟩
    ({ e with SubReddits := e.SubReddits ++ [subReddit] }, some subReddit)

/-- JoinSubReddit (engine.go): false if the community is unknown; otherwise
membership gains the user and user.Actions and TotalActions increment. -/
def JoinSubReddit (e : Engine) (uid : Nat) (subRedditName : String) :
    Engine × Bool :=
  match e.SubReddits.find? (fun sr => sr.Name == subRedditName) with
  | none => (e, false)
  | some _ =>
    ({ e with
        SubReddits := updateSub e.SubReddits subRedditName fun sr =>
          { sr with Users := insertMember sr.Users uid },
        Users := bumpActions e.Users uid,
        TotalActions := e.TotalActions + 1 }, true)

/-- LeaveSubReddit (engine.go): false if the community is unknown; otherwise
the membership entry is deleted (a no-op for a non-member) and user.Actions
and TotalActions increment regardless. -/
def LeaveSubReddit (e : Engine) (uid : Nat) (subRedditName : String) :
    Engine × Bool :=
  match e.SubReddits.find? (fun sr => sr.Name == subRedditName) with
  | none => (e, false)
  | some _ =>
    ({ e with
        SubReddits := updateSub e.SubReddits subRedditName fun sr =>
          { sr with Users := removeMember sr.Users uid },
        Users := bumpActions e.Users uid,
        TotalActions := e.TotalActions + 1 }, true)

/-- CreatePost (engine.go): nil if the community is unknown (no counter or id
is touched); otherwise a post with ID = PostID is appended to the community,
PostID, TotalPosts, ActionBreakdown Posts, user.Actions and TotalActions
increment. -/
def CreatePost (e : Engine) (uid : Nat) (subRedditName content : String) :
    Engine × Option Post :=
  match e.SubReddits.find? (fun sr => sr.Name == subRedditName) with
  | none => (e, none)
  | some _ =>
    let post : Post := ⟨e.PostID, uid, content, [], 0⟩
    ({ e with
        SubReddits := updateSub e.SubReddits subRedditName fun sr =>
          { sr with Posts := sr.Posts ++ [post] },
        PostID := e.PostID + 1,
        TotalPosts := e.TotalPosts + 1,
        ActionBreakdown :=
          { e.ActionBreakdown with Posts := e.ActionBreakdown.Posts + 1 },
        Users := bumpActions e.Users uid,
        TotalActions := e.TotalActions + 1 }, some post)

/-- CreateRepost (engine.go): nil if the destination is unknown; otherwise a
fresh post copying only the Content of the original (originalPost is read
through the callers handle, so it is passed as a value) is appended to the
destination, with the same counter increments as CreatePost. -/
def CreateRepost (e : Engine) (uid : Nat) (originalPost : Post)
    (subRedditName : String) : Engine × Option Post :=
  match e.SubReddits.find? (fun sr => sr.Name == subRedditName) with
  | none => (e, none)
  | some _ =>
    let repost : Post := ⟨e.PostID, uid, originalPost.Content, [], 0⟩
    ({ e with
        SubReddits := updateSub e.SubReddits subRedditName fun sr =>
          { sr with Posts := sr.Posts ++ [repost] },
        PostID := e.PostID + 1,
        TotalPosts := e.TotalPosts + 1,
        ActionBreakdown :=
          { e.ActionBreakdown with Posts := e.ActionBreakdown.Posts + 1 },
        Users := bumpActions e.Users uid,
        TotalActions := e.TotalActions + 1 }, some repost)

/-- CommentPost (engine.go): builds the Comment value, appends a copy of it
to post.Comments (a Go []Comment slice copies on append), increments
CommentID, TotalComments, ActionBreakdown Comments, user.Actions and
TotalActions, and returns a pointer to the escaped local copy, modelled as a
fresh cell.  The returned Nat is the cell index. -/
def CommentPost (e : Engine) (uid : Nat) (pid : Nat) (content : String) :
    Engine × Nat :=
  let comment : Comment := .mk e.CommentID uid content [] 0
  ({ e with
      SubReddits := updatePost e.SubReddits pid fun p =>
        { p with Comments := p.Comments ++ [comment] },
      CommentID := e.CommentID + 1,
      TotalComments := e.TotalComments + 1,
      ActionBreakdown :=
        { e.ActionBreakdown with Comments := e.ActionBreakdown.Comments + 1 },
      Users := bumpActions e.Users uid,
      TotalActions := e.TotalActions + 1,
      cells := e.cells ++ [comment] }, e.cells.length)

/-- AddReplyToComment (engine.go): builds the reply, appends a copy of it to
parentComment.Replies through the parent *Comment handle (a cell index),
increments the same counters as CommentPost, and returns a pointer to the
escaped local reply (a fresh cell). -/
def AddReplyToComment (e : Engine) (uid : Nat) (parentCell : Nat)
    (content : String) : Engine × Nat :=
  let reply : Comment := .mk e.CommentID uid content [] 0
  ({ e with
      CommentID := e.CommentID + 1,
      TotalComments := e.TotalComments + 1,
      ActionBreakdown :=
        { e.ActionBreakdown with Comments := e.ActionBreakdown.Comments + 1 },
      Users := bumpActions e.Users uid,
      TotalActions := e.TotalActions + 1,
      cells := (updateCell e.cells parentCell fun c => c.addReply reply)
        ++ [reply] }, e.cells.length)

/-- UpvotePost (engine.go): post.Votes++ and post.Author.Karma++ through the
*Post handle, then TotalVotes, TotalUpvotes, ActionBreakdown Votes and
TotalActions increment.  No user.Actions field changes.  A pid that is not in
the store is a post foreign to the engine (undefined behaviour per the spec);
its author is then also foreign, so no stored user or post changes. -/
def UpvotePost (e : Engine) (pid : Nat) : Engine :=
  { e with
      SubReddits := updatePost e.SubReddits pid fun p =>
        { p with Votes := p.Votes + 1 },
      Users :=
        match findPost e.SubReddits pid with
        | some p => bumpKarma e.Users p.AuthorID 1
        | none => e.Users,
      TotalVotes := e.TotalVotes + 1,
      TotalUpvotes := e.TotalUpvotes + 1,
      ActionBreakdown :=
        { e.ActionBreakdown with Votes := e.ActionBreakdown.Votes + 1 },
      TotalActions := e.TotalActions + 1 }

/-- DownvotePost (engine.go): post.Votes-- and post.Author.Karma--, then
TotalVotes, TotalDownvotes, ActionBreakdown Votes and TotalActions
increment.  No user.Actions field changes. -/
def DownvotePost (e : Engine) (pid : Nat) : Engine :=
  { e with
      SubReddits := updatePost e.SubReddits pid fun p =>
        { p with Votes := p.Votes - 1 },
      Users :=
        match findPost e.SubReddits pid with
        | some p => bumpKarma e.Users p.AuthorID (-1)
        | none => e.Users,
      TotalVotes := e.TotalVotes + 1,
      TotalDownvotes := e.TotalDownvotes + 1,
      ActionBreakdown :=
        { e.ActionBreakdown with Votes := e.ActionBreakdown.Votes + 1 },
      TotalActions := e.TotalActions + 1 }

/-- SendDirectMessage (engine.go): appends the message to the log and
increments TotalMessages, ActionBreakdown Messages, sender Actions and
TotalActions. -/
def SendDirectMessage (e : Engine) (fromId toId : Nat) (content : String) :
    Engine :=
  { e with
      Messages := e.Messages ++ [⟨fromId, toId, content⟩],
      TotalMessages := e.TotalMessages + 1,
      ActionBreakdown :=
        { e.ActionBreakdown with Messages := e.ActionBreakdown.Messages + 1 },
      Users := bumpActions e.Users fromId,
      TotalActions := e.TotalActions + 1 }

/-- RetrieveMessages (engine.go): the messages whose recipient is the given
user, in log order.  The Go pointer comparison message.To == user is ID
comparison here (each registered user is one object with a unique ID).
Read-only: the function does not produce a new engine state. -/
def RetrieveMessages (e : Engine) (uid : Nat) : List Message :=
  e.Messages.filter fun m => m.ToID == uid

/-- ReplyToMessage (engine.go): defined as SendDirectMessage to the sender of
the original message. -/
def ReplyToMessage (e : Engine) (uid : Nat) (original : Message)
    (content : String) : Engine :=
  SendDirectMessage e uid original.FromID content

/-- GetUserFeed (engine.go): all posts of every community the user is a
member of, community order then insertion order.  Read-only. -/
def GetUserFeed (e : Engine) (uid : Nat) : List Post :=
  ((e.SubReddits.filter fun sr => sr.Users.contains uid).map
    fun sr => sr.Posts).flatten

/-- One public mutating engine operation with its arguments. -/
inductive Op where
  | register (username : String)
  | createSub (name : String)
  | join (uid : Nat) (name : String)
  | leave (uid : Nat) (name : String)
  | createPost (uid : Nat) (name : String) (content : String)
  | repost (uid : Nat) (original : Post) (name : String)
  | comment (uid : Nat) (pid : Nat) (content : String)
  | reply (uid : Nat) (parentCell : Nat) (content : String)
  | upvote (pid : Nat)
  | downvote (pid : Nat)
  | message (fromId toId : Nat) (content : String)
  | replyMsg (uid : Nat) (original : Message) (content : String)

/-- The state transition of one operation (return values discarded). -/
def step (e : Engine) : Op → Engine
  | .register username => (RegisterUser e username).1
  | .createSub name => (CreateSubReddit e name).1
  | .join uid name => (JoinSubReddit e uid name).1
  | .leave uid name => (LeaveSubReddit e uid name).1
  | .createPost uid name content => (CreatePost e uid name content).1
  | .repost uid original name => (CreateRepost e uid original name).1
  | .comment uid pid content => (CommentPost e uid pid content).1
  | .reply uid parentCell content => (AddReplyToComment e uid parentCell content).1
  | .upvote pid => UpvotePost e pid
  | .downvote pid => DownvotePost e pid
  | .message fromId toId content => SendDirectMessage e fromId toId content
  | .replyMsg uid original content => ReplyToMessage e uid original content

/-- Run a sequence of operations. -/
def Run (e : Engine) (ops : List Op) : Engine :=
  ops.foldl step e

/-- Supported usage (spec section 7): every *User argument of an operation is
a handle the engine issued, i.e. a registered user.  Votes carry no user. -/
def Op.wf (e : Engine) : Op → Bool
  | .register _ => true
  | .createSub _ => true
  | .join uid _ => hasUser e uid
  | .leave uid _ => hasUser e uid
  | .createPost uid _ _ => hasUser e uid
  | .repost uid _ _ => hasUser e uid
  | .comment uid _ _ => hasUser e uid
  | .reply uid _ _ => hasUser e uid
  | .upvote _ => true
  | .downvote _ => true
  | .message fromId _ _ => hasUser e fromId
  | .replyMsg uid _ _ => hasUser e uid

/-- A sequence of operations each of which is supported usage in the state it
runs in. -/
def ValidTrace : Engine → List Op → Bool
  | _, [] => true
  | e, op :: ops => Op.wf e op && ValidTrace (step e op) ops

/-- Sum of the per-user Actions counters of all registered users. -/
def sumActions (e : Engine) : Nat :=
  (e.Users.map fun u => u.Actions).sum

/-- Karma of the registered user with the given ID (0 if none). -/
def karmaOfUsers (l : List User) (uid : Nat) : Int :=
  match findUser l uid with
  | some u => u.Karma
  | none => 0

/-- Karma of the registered user with the given ID, in an engine state. -/
def karmaOf (e : Engine) (uid : Nat) : Int :=
  karmaOfUsers e.Users uid

/-- Author of the stored post a *Post handle points to, if any. -/
def authorOf (e : Engine) (pid : Nat) : Option Nat :=
  (findPost e.SubReddits pid).map fun p => p.AuthorID

/-- Number of upvote operations in the trace applied to a stored post
authored by uid (evaluated in the state in which each vote runs). -/
def upCount : Engine → List Op → Nat → Nat
  | _, [], _ => 0
  | e, op :: ops, uid =>
    (match op with
      | .upvote pid => if authorOf e pid = some uid then 1 else 0
      | _ => 0) + upCount (step e op) ops uid

/-- Number of downvote operations in the trace applied to a stored post
authored by uid. -/
def downCount : Engine → List Op → Nat → Nat
  | _, [], _ => 0
  | e, op :: ops, uid =>
    (match op with
      | .downvote pid => if authorOf e pid = some uid then 1 else 0
      | _ => 0) + downCount (step e op) ops uid

/-- Post IDs issued along a trace (one per successful CreatePost or
CreateRepost; a failed creation issues nothing). -/
def postIdsIssued : Engine → List Op → List Nat
  | _, [] => []
  | e, op :: ops =>
    (match op with
      | .createPost _ name _ =>
        if (e.SubReddits.find? (fun sr => sr.Name == name)).isSome
        then [e.PostID] else []
      | .repost _ _ name =>
        if (e.SubReddits.find? (fun sr => sr.Name == name)).isSome
        then [e.PostID] else []
      | _ => []) ++ postIdsIssued (step e op) ops

/-- Comment IDs issued along a trace (one per CommentPost or
AddReplyToComment, which always succeed). -/
def commentIdsIssued : Engine → List Op → List Nat
  | _, [] => []
  | e, op :: ops =>
    (match op with
      | .comment _ _ _ => [e.CommentID]
      | .reply _ _ _ => [e.CommentID]
      | _ => []) ++ commentIdsIssued (step e op) ops

/-- Membership set of the community with the given name (empty if none). -/
def membersOf (e : Engine) (name : String) : List Nat :=
  match e.SubReddits.find? (fun sr => sr.Name == name) with
  | some sr => sr.Users
  | none => []

/-- IDs of the registered users are exactly 1..n in registration order. -/
def IdsInv (e : Engine) : Prop :=
  e.Users.map (fun u => u.ID) = List.range' 1 e.Users.length

/-- Every stored post was created with a registered author. -/
def AuthorsValid (e : Engine) : Prop :=
  ∀ sr ∈ e.SubReddits, ∀ p ∈ sr.Posts, hasUser e p.AuthorID = true

/-- Concrete engine for witnesses: one user, one community r, one post. -/
def engineW : Engine :=
  (CreatePost ((CreateSubReddit ((RegisterUser NewEngine "alice").1) "r").1)
    1 "r" "hi").1

/-- Concrete original post for the repost witness (the post stored in
engineW). -/
def origW : Post := ⟨1, 1, "hi", [], 0⟩

/-- Concrete engine for the membership witness: one user, one community s. -/
def engineW7 : Engine := (CreateSubReddit ((RegisterUser NewEngine "bob").1) "s").1

/-- Concrete engine for the comment-cell witness: engineW after one
CommentPost, so one escaped comment cell exists (index 0). -/
def engineW9 : Engine := (CommentPost engineW 1 1 "c0").1

/-- Concrete trace refuting the C1 claim as stated: one vote increments
TotalActions but no user Actions counter. -/
def opsCe1 : List Op :=
  [.createSub "c", .register "u", .createPost 1 "c" "t", .upvote 1]

/-- Concrete valid trace for the amended C1 witness. -/
def opsW1 : List Op :=
  [.register "u", .createSub "c", .join 1 "c", .createPost 1 "c" "t",
    .upvote 1, .downvote 1, .message 1 1 "hey"]

/-- Concrete valid trace for the karma witness. -/
def opsW3 : List Op :=
  [.register "u", .register "v", .createSub "c", .createPost 1 "c" "t",
    .upvote 1, .upvote 1, .downvote 1, .createPost 2 "c" "w", .downvote 2]

theorem run_nil (e : Engine) : Run e [] = e := rfl

theorem run_cons (e : Engine) (op : Op) (ops : List Op) :
    Run e (op :: ops) = Run (step e op) ops := rfl

theorem votes_inv_step (e : Engine) (op : Op)
    (h : e.TotalVotes = e.TotalUpvotes + e.TotalDownvotes) :
    (step e op).TotalVotes = (step e op).TotalUpvotes + (step e op).TotalDownvotes := by
  cases op <;>
    simp only [step, RegisterUser, CreateSubReddit, JoinSubReddit, LeaveSubReddit,
      CreatePost, CreateRepost, CommentPost, AddReplyToComment, UpvotePost,
      DownvotePost, SendDirectMessage, ReplyToMessage] <;>
    first
      | (split <;> simp <;> omega)
      | (simp <;> omega)
      | omega

theorem votes_inv_run (ops : List Op) :
    ∀ e : Engine, e.TotalVotes = e.TotalUpvotes + e.TotalDownvotes →
      (Run e ops).TotalVotes = (Run e ops).TotalUpvotes + (Run e ops).TotalDownvotes := by
  induction ops with
  | nil => intro e h; exact h
  | cons op ops ih => intro e h; exact ih (step e op) (votes_inv_step e op h)

/-- C2: after every sequence of engine operations starting from NewEngine,
TotalVotes equals TotalUpvotes plus TotalDownvotes (each vote operation
increments TotalVotes and exactly one directional counter). -/
theorem c2_votes_split_invariant (ops : List Op) :
    (Run NewEngine ops).TotalVotes =
      (Run NewEngine ops).TotalUpvotes + (Run NewEngine ops).TotalDownvotes :=
  votes_inv_run ops NewEngine rfl

theorem breakdown_inv_step (e : Engine) (op : Op)
    (h : e.ActionBreakdown.Posts = e.TotalPosts ∧
      e.ActionBreakdown.Comments = e.TotalComments ∧
      e.ActionBreakdown.Votes = e.TotalVotes ∧
      e.ActionBreakdown.Messages = e.TotalMessages) :
    (step e op).ActionBreakdown.Posts = (step e op).TotalPosts ∧
      (step e op).ActionBreakdown.Comments = (step e op).TotalComments ∧
      (step e op).ActionBreakdown.Votes = (step e op).TotalVotes ∧
      (step e op).ActionBreakdown.Messages = (step e op).TotalMessages := by
  obtain ⟨h1, h2, h3, h4⟩ := h
  cases op <;>
    simp only [step, RegisterUser, CreateSubReddit, JoinSubReddit, LeaveSubReddit,
      CreatePost, CreateRepost, CommentPost, AddReplyToComment, UpvotePost,
      DownvotePost, SendDirectMessage, ReplyToMessage] <;>
    first
      | (split <;> simp <;> omega)
      | (simp <;> omega)
      | omega

theorem breakdown_inv_run (ops : List Op) :
    ∀ e : Engine,
      (e.ActionBreakdown.Posts = e.TotalPosts ∧
        e.ActionBreakdown.Comments = e.TotalComments ∧
        e.ActionBreakdown.Votes = e.TotalVotes ∧
        e.ActionBreakdown.Messages = e.TotalMessages) →
      ((Run e ops).ActionBreakdown.Posts = (Run e ops).TotalPosts ∧
        (Run e ops).ActionBreakdown.Comments = (Run e ops).TotalComments ∧
        (Run e ops).ActionBreakdown.Votes = (Run e ops).TotalVotes ∧
        (Run e ops).ActionBreakdown.Messages = (Run e ops).TotalMessages) := by
  induction ops with
  | nil => intro e h; exact h
  | cons op ops ih => intro e h; exact ih (step e op) (breakdown_inv_step e op h)

/-- C10: after every sequence of engine operations starting from NewEngine,
the per-kind action breakdown mirrors the aggregate counters: the Posts,
Comments, Votes and Messages entries equal TotalPosts, TotalComments,
TotalVotes and TotalMessages respectively. -/
theorem c10_breakdown_mirrors_totals (ops : List Op) :
    (Run NewEngine ops).ActionBreakdown.Posts = (Run NewEngine ops).TotalPosts ∧
      (Run NewEngine ops).ActionBreakdown.Comments = (Run NewEngine ops).TotalComments ∧
      (Run NewEngine ops).ActionBreakdown.Votes = (Run NewEngine ops).TotalVotes ∧
      (Run NewEngine ops).ActionBreakdown.Messages = (Run NewEngine ops).TotalMessages :=
  breakdown_inv_run ops NewEngine ⟨rfl, rfl, rfl, rfl⟩

theorem postIds_spec (ops : List Op) :
    ∀ e : Engine, ∃ n, postIdsIssued e ops = List.range' e.PostID n ∧
      (Run e ops).PostID = e.PostID + n := by
  induction ops with
  | nil => intro e; exact ⟨0, by simp [postIdsIssued], by simp [Run]⟩
  | cons op ops ih =>
    intro e
    obtain ⟨n, h1, h2⟩ := ih (step e op)
    rw [run_cons]
    cases op with
    | register username =>
      exact ⟨n, by simpa [postIdsIssued, step, RegisterUser] using h1,
        by simpa [step, RegisterUser] using h2⟩
    | createSub name =>
      cases hf : e.SubReddits.find? (fun sr => sr.Name == name) <;>
        exact ⟨n, by simpa [postIdsIssued, step, CreateSubReddit, hf] using h1,
          by simpa [step, CreateSubReddit, hf] using h2⟩
    | join uid name =>
      cases hf : e.SubReddits.find? (fun sr => sr.Name == name) <;>
        exact ⟨n, by simpa [postIdsIssued, step, JoinSubReddit, hf] using h1,
          by simpa [step, JoinSubReddit, hf] using h2⟩
    | leave uid name =>
      cases hf : e.SubReddits.find? (fun sr => sr.Name == name) <;>
        exact ⟨n, by simpa [postIdsIssued, step, LeaveSubReddit, hf] using h1,
          by simpa [step, LeaveSubReddit, hf] using h2⟩
    | createPost uid name content =>
      cases hf : e.SubReddits.find? (fun sr => sr.Name == name) with
      | none =>
        exact ⟨n, by simpa [postIdsIssued, step, CreatePost, hf] using h1,
          by simpa [step, CreatePost, hf] using h2⟩
      | some sr =>
        have h1' : postIdsIssued (step e (Op.createPost uid name content)) ops
            = List.range' (e.PostID + 1) n := by
          simpa [step, CreatePost, hf] using h1
        have h2' : (Run (step e (Op.createPost uid name content)) ops).PostID
            = e.PostID + 1 + n := by
          simpa [step, CreatePost, hf] using h2
        refine ⟨n + 1, ?_, ?_⟩
        · simp only [postIdsIssued, hf, Option.isSome_some, if_true,
            List.singleton_append, List.range'_succ]
          exact congrArg (List.cons e.PostID) h1'
        · rw [h2']; omega
    | repost uid original name =>
      cases hf : e.SubReddits.find? (fun sr => sr.Name == name) with
      | none =>
        exact ⟨n, by simpa [postIdsIssued, step, CreateRepost, hf] using h1,
          by simpa [step, CreateRepost, hf] using h2⟩
      | some sr =>
        have h1' : postIdsIssued (step e (Op.repost uid original name)) ops
            = List.range' (e.PostID + 1) n := by
          simpa [step, CreateRepost, hf] using h1
        have h2' : (Run (step e (Op.repost uid original name)) ops).PostID
            = e.PostID + 1 + n := by
          simpa [step, CreateRepost, hf] using h2
        refine ⟨n + 1, ?_, ?_⟩
        · simp only [postIdsIssued, hf, Option.isSome_some, if_true,
            List.singleton_append, List.range'_succ]
          exact congrArg (List.cons e.PostID) h1'
        · rw [h2']; omega
    | comment uid pid content =>
      exact ⟨n, by simpa [postIdsIssued, step, CommentPost] using h1,
        by simpa [step, CommentPost] using h2⟩
    | reply uid parentCell content =>
      exact ⟨n, by simpa [postIdsIssued, step, AddReplyToComment] using h1,
        by simpa [step, AddReplyToComment] using h2⟩
    | upvote pid =>
      exact ⟨n, by simpa [postIdsIssued, step, UpvotePost] using h1,
        by simpa [step, UpvotePost] using h2⟩
    | downvote pid =>
      exact ⟨n, by simpa [postIdsIssued, step, DownvotePost] using h1,
        by simpa [step, DownvotePost] using h2⟩
    | message fromId toId content =>
      exact ⟨n, by simpa [postIdsIssued, step, SendDirectMessage] using h1,
        by simpa [step, SendDirectMessage] using h2⟩
    | replyMsg uid original content =>
      exact ⟨n, by simpa [postIdsIssued, step, ReplyToMessage, SendDirectMessage] using h1,
        by simpa [step, ReplyToMessage, SendDirectMessage] using h2⟩

theorem commentIds_spec (ops : List Op) :
    ∀ e : Engine, ∃ n, commentIdsIssued e ops = List.range' e.CommentID n ∧
      (Run e ops).CommentID = e.CommentID + n := by
  induction ops with
  | nil => intro e; exact ⟨0, by simp [commentIdsIssued], by simp [Run]⟩
  | cons op ops ih =>
    intro e
    obtain ⟨n, h1, h2⟩ := ih (step e op)
    rw [run_cons]
    cases op with
    | register username =>
      exact ⟨n, by simpa [commentIdsIssued, step, RegisterUser] using h1,
        by simpa [step, RegisterUser] using h2⟩
    | createSub name =>
      cases hf : e.SubReddits.find? (fun sr => sr.Name == name) <;>
        exact ⟨n, by simpa [commentIdsIssued, step, CreateSubReddit, hf] using h1,
          by simpa [step, CreateSubReddit, hf] using h2⟩
    | join uid name =>
      cases hf : e.SubReddits.find? (fun sr => sr.Name == name) <;>
        exact ⟨n, by simpa [commentIdsIssued, step, JoinSubReddit, hf] using h1,
          by simpa [step, JoinSubReddit, hf] using h2⟩
    | leave uid name =>
      cases hf : e.SubReddits.find? (fun sr => sr.Name == name) <;>
        exact ⟨n, by simpa [commentIdsIssued, step, LeaveSubReddit, hf] using h1,
          by simpa [step, LeaveSubReddit, hf] using h2⟩
    | createPost uid name content =>
      cases hf : e.SubReddits.find? (fun sr => sr.Name == name) <;>
        exact ⟨n, by simpa [commentIdsIssued, step, CreatePost, hf] using h1,
          by simpa [step, CreatePost, hf] using h2⟩
    | repost uid original name =>
      cases hf : e.SubReddits.find? (fun sr => sr.Name == name) <;>
        exact ⟨n, by simpa [commentIdsIssued, step, CreateRepost, hf] using h1,
          by simpa [step, CreateRepost, hf] using h2⟩
    | comment uid pid content =>
      have h1' : commentIdsIssued (step e (Op.comment uid pid content)) ops
          = List.range' (e.CommentID + 1) n := by
        simpa [step, CommentPost] using h1
      have h2' : (Run (step e (Op.comment uid pid content)) ops).CommentID
          = e.CommentID + 1 + n := by
        simpa [step, CommentPost] using h2
      refine ⟨n + 1, ?_, ?_⟩
      · simp only [commentIdsIssued, List.singleton_append, List.range'_succ]
        exact congrArg (List.cons e.CommentID) h1'
      · rw [h2']; omega
    | reply uid parentCell content =>
      have h1' : commentIdsIssued (step e (Op.reply uid parentCell content)) ops
          = List.range' (e.CommentID + 1) n := by
        simpa [step, AddReplyToComment] using h1
      have h2' : (Run (step e (Op.reply uid parentCell content)) ops).CommentID
          = e.CommentID + 1 + n := by
        simpa [step, AddReplyToComment] using h2
      refine ⟨n + 1, ?_, ?_⟩
      · simp only [commentIdsIssued, List.singleton_append, List.range'_succ]
        exact congrArg (List.cons e.CommentID) h1'
      · rw [h2']; omega
    | upvote pid =>
      exact ⟨n, by simpa [commentIdsIssued, step, UpvotePost] using h1,
        by simpa [step, UpvotePost] using h2⟩
    | downvote pid =>
      exact ⟨n, by simpa [commentIdsIssued, step, DownvotePost] using h1,
        by simpa [step, DownvotePost] using h2⟩
    | message fromId toId content =>
      exact ⟨n, by simpa [commentIdsIssued, step, SendDirectMessage] using h1,
        by simpa [step, SendDirectMessage] using h2⟩
    | replyMsg uid original content =>
      exact ⟨n, by simpa [commentIdsIssued, step, ReplyToMessage, SendDirectMessage] using h1,
        by simpa [step, ReplyToMessage, SendDirectMessage] using h2⟩

/-- C4: along any sequence of engine operations from NewEngine, the post IDs
issued (by successful CreatePost or CreateRepost) are exactly 1, 2, ... in
order, hence strictly increasing and without repetition, and the PostID
counter equals 1 plus the number of IDs issued, so a failed creation
consumes no identifier; the same holds for comment IDs issued by CommentPost
and AddReplyToComment against the CommentID counter. -/
theorem c4_ids_strictly_increasing (ops : List Op) :
    (postIdsIssued NewEngine ops
        = List.range' 1 (postIdsIssued NewEngine ops).length ∧
      (postIdsIssued NewEngine ops).Pairwise (· < ·) ∧
      (Run NewEngine ops).PostID = 1 + (postIdsIssued NewEngine ops).length) ∧
    (commentIdsIssued NewEngine ops
        = List.range' 1 (commentIdsIssued NewEngine ops).length ∧
      (commentIdsIssued NewEngine ops).Pairwise (· < ·) ∧
      (Run NewEngine ops).CommentID = 1 + (commentIdsIssued NewEngine ops).length) := by
  obtain ⟨n, h1, h2⟩ := postIds_spec ops NewEngine
  obtain ⟨m, g1, g2⟩ := commentIds_spec ops NewEngine
  have en : NewEngine.PostID = 1 := rfl
  have em : NewEngine.CommentID = 1 := rfl
  rw [en] at h1 h2
  rw [em] at g1 g2
  have hn : (postIdsIssued NewEngine ops).length = n := by
    rw [h1]; simp
  have hm : (commentIdsIssued NewEngine ops).length = m := by
    rw [g1]; simp
  refine ⟨⟨by rw [hn]; exact h1, ?_, by rw [hn]; exact h2⟩,
    ⟨by rw [hm]; exact g1, ?_, by rw [hm]; exact g2⟩⟩
  · rw [h1]; exact List.pairwise_lt_range' 1 n
  · rw [g1]; exact List.pairwise_lt_range' 1 m

/-- C5: calling JoinSubReddit, LeaveSubReddit, CreatePost or CreateRepost
with a community name not in the store returns the failure signal (false or
none) and leaves the entire engine state unchanged: no entity and no counter
changes. -/
theorem c5_unknown_community_noop (e : Engine) (uid : Nat) (name : String)
    (content : String) (original : Post)
    (h : (e.SubReddits.find? (fun sr => sr.Name == name)).isSome = false) :
    JoinSubReddit e uid name = (e, false) ∧
    LeaveSubReddit e uid name = (e, false) ∧
    CreatePost e uid name content = (e, none) ∧
    CreateRepost e uid original name = (e, none) := by
  cases hf : e.SubReddits.find? (fun sr => sr.Name == name) with
  | none =>
    exact ⟨by simp [JoinSubReddit, hf], by simp [LeaveSubReddit, hf],
      by simp [CreatePost, hf], by simp [CreateRepost, hf]⟩
  | some sr => rw [hf] at h; simp at h

theorem c5_unknown_community_noop_witness :
    ((NewEngine.SubReddits.find? (fun sr => sr.Name == "nope")).isSome = false) ∧
    (JoinSubReddit NewEngine 1 "nope" = (NewEngine, false) ∧
      LeaveSubReddit NewEngine 1 "nope" = (NewEngine, false) ∧
      CreatePost NewEngine 1 "nope" "hello" = (NewEngine, none) ∧
      CreateRepost NewEngine 1 origW "nope" = (NewEngine, none)) :=
  ⟨by decide, c5_unknown_community_noop NewEngine 1 "nope" "hello" origW (by decide)⟩

/-- C6: for an existing destination community, CreateRepost returns a new
post with the content of the original, the freshly allocated ID (distinct
from the ID of any post the engine issued before, in particular of the
original), zero votes and an empty comment list, and appends it to the
destination community; every previously stored post is kept as it was (the
new state is the old one with only the new post appended). -/
theorem c6_repost_spec (e : Engine) (uid : Nat) (orig : Post) (name : String)
    (hsr : (e.SubReddits.find? (fun sr => sr.Name == name)).isSome = true)
    (hfresh : orig.ID < e.PostID) :
    ∃ p : Post,
      (CreateRepost e uid orig name).2 = some p ∧
      p.Content = orig.Content ∧
      p.ID = e.PostID ∧
      p.ID ≠ orig.ID ∧
      p.Votes = 0 ∧
      p.Comments = [] ∧
      (CreateRepost e uid orig name).1.SubReddits =
        updateSub e.SubReddits name (fun sr => { sr with Posts := sr.Posts ++ [p] }) := by
  cases hf : e.SubReddits.find? (fun sr => sr.Name == name) with
  | none => rw [hf] at hsr; simp at hsr
  | some sr =>
    refine ⟨⟨e.PostID, uid, orig.Content, [], 0⟩, ?_, rfl, rfl, ?_, rfl, rfl, ?_⟩
    · simp [CreateRepost, hf]
    · exact (Nat.ne_of_lt hfresh).symm
    · simp [CreateRepost, hf]

theorem c6_repost_spec_witness :
    ((engineW.SubReddits.find? (fun sr => sr.Name == "r")).isSome = true) ∧
    origW.ID < engineW.PostID ∧
    (∃ p : Post,
      (CreateRepost engineW 2 origW "r").2 = some p ∧
      p.Content = origW.Content ∧
      p.ID = engineW.PostID ∧
      p.ID ≠ origW.ID ∧
      p.Votes = 0 ∧
      p.Comments = [] ∧
      (CreateRepost engineW 2 origW "r").1.SubReddits =
        updateSub engineW.SubReddits "r"
          (fun sr => { sr with Posts := sr.Posts ++ [p] })) :=
  ⟨by decide, by decide, c6_repost_spec engineW 2 origW "r" (by decide) (by decide)⟩

theorem find?_updateSub (subs : List SubReddit) (name : String)
    (f : SubReddit → SubReddit) (hf : ∀ sr, (f sr).Name = sr.Name) :
    (updateSub subs name f).find? (fun sr => sr.Name == name)
      = (subs.find? (fun sr => sr.Name == name)).map f := by
  induction subs with
  | nil => simp [updateSub]
  | cons sr rest ih =>
    simp only [updateSub, List.map_cons]
    by_cases hn : sr.Name = name
    · rw [if_pos hn]
      rw [List.find?_cons_of_pos _ (by simp [hf, hn]),
        List.find?_cons_of_pos _ (by simp [hn])]
      rfl
    · rw [if_neg hn]
      rw [List.find?_cons_of_neg _ (by simp [hn]),
        List.find?_cons_of_neg _ (by simp [hn])]
      simpa [updateSub] using ih

theorem insertMember_idem (l : List Nat) (uid : Nat) :
    insertMember (insertMember l uid) uid = insertMember l uid := by
  by_cases h : uid ∈ l
  · simp [insertMember, h]
  · simp [insertMember, h]

theorem removeMember_of_not_mem (l : List Nat) (uid : Nat) (h : uid ∉ l) :
    removeMember l uid = l := by
  refine List.filter_eq_self.mpr ?_
  intro a ha
  simp only [bne_iff_ne, ne_eq, decide_eq_true_eq]
  exact fun hEq => h (hEq ▸ ha)

theorem membersOf_join (e : Engine) (uid : Nat) (name : String) (sr0 : SubReddit)
    (hf : e.SubReddits.find? (fun sr => sr.Name == name) = some sr0) :
    membersOf (JoinSubReddit e uid name).1 name = insertMember sr0.Users uid ∧
    (JoinSubReddit e uid name).1.SubReddits.find? (fun sr => sr.Name == name)
      = some { sr0 with Users := insertMember sr0.Users uid } := by
  have hsub : (JoinSubReddit e uid name).1.SubReddits
      = updateSub e.SubReddits name
        (fun sr => { sr with Users := insertMember sr.Users uid }) := by
    simp [JoinSubReddit, hf]
  have hfind : (JoinSubReddit e uid name).1.SubReddits.find? (fun sr => sr.Name == name)
      = some { sr0 with Users := insertMember sr0.Users uid } := by
    rw [hsub, find?_updateSub e.SubReddits name
      (fun sr => { sr with Users := insertMember sr.Users uid }) (fun _ => rfl), hf]
    rfl
  exact ⟨by simp [membersOf, hfind], hfind⟩

theorem membersOf_leave (e : Engine) (uid : Nat) (name : String) (sr0 : SubReddit)
    (hf : e.SubReddits.find? (fun sr => sr.Name == name) = some sr0) :
    membersOf (LeaveSubReddit e uid name).1 name = removeMember sr0.Users uid := by
  have hsub : (LeaveSubReddit e uid name).1.SubReddits
      = updateSub e.SubReddits name
        (fun sr => { sr with Users := removeMember sr.Users uid }) := by
    simp [LeaveSubReddit, hf]
  have hfind : (LeaveSubReddit e uid name).1.SubReddits.find? (fun sr => sr.Name == name)
      = some { sr0 with Users := removeMember sr0.Users uid } := by
    rw [hsub, find?_updateSub e.SubReddits name
      (fun sr => { sr with Users := removeMember sr.Users uid }) (fun _ => rfl), hf]
    rfl
  simp [membersOf, hfind]

/-- C7: for an existing community, joining twice leaves the membership set
exactly as joining once (re-join overwrites the same entry), and leaving
while not a member leaves the membership set unchanged. -/
theorem c7_join_idempotent_leave_noop (e : Engine) (uid : Nat) (name : String)
    (h : (e.SubReddits.find? (fun sr => sr.Name == name)).isSome = true) :
    membersOf (JoinSubReddit (JoinSubReddit e uid name).1 uid name).1 name
      = membersOf (JoinSubReddit e uid name).1 name ∧
    (uid ∉ membersOf e name →
      membersOf (LeaveSubReddit e uid name).1 name = membersOf e name) := by
  cases hf : e.SubReddits.find? (fun sr => sr.Name == name) with
  | none => rw [hf] at h; simp at h
  | some sr0 =>
    obtain ⟨hm1, hfind1⟩ := membersOf_join e uid name sr0 hf
    constructor
    · obtain ⟨hm2, _⟩ := membersOf_join (JoinSubReddit e uid name).1 uid name
        { sr0 with Users := insertMember sr0.Users uid } hfind1
      rw [hm2, hm1]
      exact insertMember_idem sr0.Users uid
    · intro hmem
      have hm : membersOf e name = sr0.Users := by simp [membersOf, hf]
      rw [hm] at hmem ⊢
      rw [membersOf_leave e uid name sr0 hf]
      exact removeMember_of_not_mem sr0.Users uid hmem

theorem c7_join_idempotent_leave_noop_witness :
    ((engineW7.SubReddits.find? (fun sr => sr.Name == "s")).isSome = true) ∧
    (membersOf (JoinSubReddit (JoinSubReddit engineW7 1 "s").1 1 "s").1 "s"
        = membersOf (JoinSubReddit engineW7 1 "s").1 "s" ∧
      (1 ∉ membersOf engineW7 "s" →
        membersOf (LeaveSubReddit engineW7 1 "s").1 "s" = membersOf engineW7 "s")) :=
  ⟨by decide, c7_join_idempotent_leave_noop engineW7 1 "s" (by decide)⟩

/-- C8: RetrieveMessages returns a sublist of the message log (so the
messages appear in the order they were appended), every returned message has
the given user as recipient, and every logged message to that user is
returned; it is a pure query with no effect on the engine state. -/
theorem c8_retrieveMessages_spec (e : Engine) (uid : Nat) :
    (RetrieveMessages e uid).Sublist e.Messages ∧
    (∀ m ∈ RetrieveMessages e uid, m.ToID = uid) ∧
    (∀ m ∈ e.Messages, m.ToID = uid → m ∈ RetrieveMessages e uid) := by
  refine ⟨List.filter_sublist _, ?_, ?_⟩
  · intro m hm
    have hb := List.of_mem_filter hm
    simpa using hb
  · intro m hm hto
    exact List.mem_filter.mpr ⟨hm, by simpa using hto⟩

theorem updateCell_append_at_length (l : List Comment) (c : Comment)
    (tail : List Comment) (f : Comment → Comment) :
    updateCell (l ++ c :: tail) l.length f = l ++ f c :: tail := by
  induction l with
  | nil => rfl
  | cons x xs ih => simpa [updateCell] using ih

theorem getElem?_append_cons {α : Type} (l : List α) (a : α) (t : List α) :
    (l ++ a :: t)[l.length]? = some a := by
  induction l with
  | nil => simp
  | cons x xs ih => simpa using ih

theorem length_updateCell (l : List Comment) (i : Nat) (f : Comment → Comment) :
    (updateCell l i f).length = l.length := by
  induction l generalizing i with
  | nil => rfl
  | cons c cs ih =>
    cases i with
    | zero => simp [updateCell]
    | succ n => simpa [updateCell] using ih n

theorem getElem?_updateCell (l : List Comment) (i : Nat) (f : Comment → Comment) :
    (updateCell l i f)[i]? = (l[i]?).map f := by
  induction l generalizing i with
  | nil => simp [updateCell]
  | cons c cs ih =>
    cases i with
    | zero => simp [updateCell]
    | succ n => simpa [updateCell] using ih n

theorem getElem?_updateCell_ne (l : List Comment) (i j : Nat)
    (f : Comment → Comment) (h : j ≠ i) :
    (updateCell l i f)[j]? = l[j]? := by
  induction l generalizing i j with
  | nil => simp [updateCell]
  | cons c cs ih =>
    cases i with
    | zero =>
      cases j with
      | zero => exact absurd rfl h
      | succ m => simp [updateCell]
    | succ n =>
      cases j with
      | zero => simp [updateCell]
      | succ m => simpa [updateCell] using ih n m (fun hEq => h (by rw [hEq]))

/-- C9: the *Comment returned by CommentPost, and likewise the *Comment
returned by AddReplyToComment, points at the escaped local (a cell), a copy
distinct from the element appended to the stored container (the post's
Comments list, respectively the parent's Replies list).  Consequently a
subsequent AddReplyToComment through either returned pointer appends the
reply only to that cell: the stored communities, hence the comment tree
under every post, are unchanged, the returned cell carries the reply, and in
the AddReplyToComment case the parent cell still holds exactly the copy with
the empty reply list that the first call appended to its Replies. -/
theorem c9_comment_pointer_detached (e : Engine) (uid pid cref : Nat)
    (content : String) (uid2 : Nat) (content2 : String) :
    ((AddReplyToComment (CommentPost e uid pid content).1 uid2
        (CommentPost e uid pid content).2 content2).1.SubReddits
      = (CommentPost e uid pid content).1.SubReddits ∧
    ((AddReplyToComment (CommentPost e uid pid content).1 uid2
        (CommentPost e uid pid content).2 content2).1.cells)[
          (CommentPost e uid pid content).2]?
      = some (Comment.mk e.CommentID uid content
          [Comment.mk (e.CommentID + 1) uid2 content2 [] 0] 0)) ∧
    ((AddReplyToComment (AddReplyToComment e uid cref content).1 uid2
        (AddReplyToComment e uid cref content).2 content2).1.SubReddits
      = (AddReplyToComment e uid cref content).1.SubReddits ∧
    ((AddReplyToComment (AddReplyToComment e uid cref content).1 uid2
        (AddReplyToComment e uid cref content).2 content2).1.cells)[
          (AddReplyToComment e uid cref content).2]?
      = some (Comment.mk e.CommentID uid content
          [Comment.mk (e.CommentID + 1) uid2 content2 [] 0] 0) ∧
    (cref < e.cells.length →
      ((AddReplyToComment (AddReplyToComment e uid cref content).1 uid2
          (AddReplyToComment e uid cref content).2 content2).1.cells)[cref]?
        = (e.cells[cref]?).map
            (fun c => c.addReply (Comment.mk e.CommentID uid content [] 0)))) := by
  refine ⟨⟨rfl, ?_⟩, rfl, ?_, ?_⟩
  · show ((updateCell (e.cells ++ [Comment.mk e.CommentID uid content [] 0])
        e.cells.length
        (fun c => c.addReply (Comment.mk (e.CommentID + 1) uid2 content2 [] 0)))
        ++ [Comment.mk (e.CommentID + 1) uid2 content2 [] 0])[e.cells.length]?
      = some (Comment.mk e.CommentID uid content
          [Comment.mk (e.CommentID + 1) uid2 content2 [] 0] 0)
    rw [updateCell_append_at_length e.cells (Comment.mk e.CommentID uid content [] 0)
      [] (fun c => c.addReply (Comment.mk (e.CommentID + 1) uid2 content2 [] 0))]
    rw [List.append_cons, List.append_assoc]
    have := getElem?_append_cons e.cells
      ((Comment.mk e.CommentID uid content [] 0).addReply
        (Comment.mk (e.CommentID + 1) uid2 content2 [] 0))
      [Comment.mk (e.CommentID + 1) uid2 content2 [] 0]
    simpa [Comment.addReply] using this
  · show ((updateCell ((updateCell e.cells cref
          (fun c => c.addReply (Comment.mk e.CommentID uid content [] 0)))
          ++ [Comment.mk e.CommentID uid content [] 0])
        e.cells.length
        (fun c => c.addReply (Comment.mk (e.CommentID + 1) uid2 content2 [] 0)))
        ++ [Comment.mk (e.CommentID + 1) uid2 content2 [] 0])[e.cells.length]?
      = some (Comment.mk e.CommentID uid content
          [Comment.mk (e.CommentID + 1) uid2 content2 [] 0] 0)
    have hlen := length_updateCell e.cells cref
      (fun c => c.addReply (Comment.mk e.CommentID uid content [] 0))
    rw [← hlen]
    rw [updateCell_append_at_length
      (updateCell e.cells cref
        (fun c => c.addReply (Comment.mk e.CommentID uid content [] 0)))
      (Comment.mk e.CommentID uid content [] 0)
      [] (fun c => c.addReply (Comment.mk (e.CommentID + 1) uid2 content2 [] 0))]
    rw [List.append_cons, List.append_assoc]
    have := getElem?_append_cons
      (updateCell e.cells cref
        (fun c => c.addReply (Comment.mk e.CommentID uid content [] 0)))
      ((Comment.mk e.CommentID uid content [] 0).addReply
        (Comment.mk (e.CommentID + 1) uid2 content2 [] 0))
      [Comment.mk (e.CommentID + 1) uid2 content2 [] 0]
    simpa [Comment.addReply] using this
  · intro h
    show ((updateCell ((updateCell e.cells cref
          (fun c => c.addReply (Comment.mk e.CommentID uid content [] 0)))
          ++ [Comment.mk e.CommentID uid content [] 0])
        e.cells.length
        (fun c => c.addReply (Comment.mk (e.CommentID + 1) uid2 content2 [] 0)))
        ++ [Comment.mk (e.CommentID + 1) uid2 content2 [] 0])[cref]?
      = (e.cells[cref]?).map
          (fun c => c.addReply (Comment.mk e.CommentID uid content [] 0))
    have h1 : cref < (updateCell ((updateCell e.cells cref
        (fun c => c.addReply (Comment.mk e.CommentID uid content [] 0)))
        ++ [Comment.mk e.CommentID uid content [] 0])
        e.cells.length
        (fun c => c.addReply (Comment.mk (e.CommentID + 1) uid2 content2 [] 0))).length := by
      rw [length_updateCell, List.length_append, length_updateCell]
      simp
      omega
    rw [List.getElem?_append_left h1]
    rw [getElem?_updateCell_ne _ e.cells.length cref _ (Nat.ne_of_lt h)]
    have h2 : cref < (updateCell e.cells cref
        (fun c => c.addReply (Comment.mk e.CommentID uid content [] 0))).length := by
      rw [length_updateCell]
      exact h
    rw [List.getElem?_append_left h2]
    exact getElem?_updateCell e.cells cref
      (fun c => c.addReply (Comment.mk e.CommentID uid content [] 0))

theorem c9_comment_pointer_detached_witness :
    0 < engineW9.cells.length ∧
    ((AddReplyToComment (AddReplyToComment engineW9 1 0 "x").1 1
        (AddReplyToComment engineW9 1 0 "x").2 "y").1.cells)[0]?
      = (engineW9.cells[0]?).map
          (fun c => c.addReply (Comment.mk engineW9.CommentID 1 "x" [] 0)) :=
  ⟨by decide,
    (c9_comment_pointer_detached engineW9 1 1 0 "x" 1 "y").2.2.2 (by decide)⟩

theorem map_id_bumpActions (l : List User) (uid : Nat) :
    (bumpActions l uid).map (fun u => u.ID) = l.map (fun u => u.ID) := by
  induction l with
  | nil => rfl
  | cons u rest ih =>
    by_cases h : u.ID = uid <;> simp only [bumpActions, List.map_cons] at ih ⊢ <;>
      simp [h, ih]

theorem map_id_bumpKarma (l : List User) (uid : Nat) (d : Int) :
    (bumpKarma l uid d).map (fun u => u.ID) = l.map (fun u => u.ID) := by
  induction l with
  | nil => rfl
  | cons u rest ih =>
    by_cases h : u.ID = uid <;> simp only [bumpKarma, List.map_cons] at ih ⊢ <;>
      simp [h, ih]

theorem length_bumpActions (l : List User) (uid : Nat) :
    (bumpActions l uid).length = l.length := by
  simp [bumpActions]

theorem length_bumpKarma (l : List User) (uid : Nat) (d : Int) :
    (bumpKarma l uid d).length = l.length := by
  simp [bumpKarma]

theorem ids_inv_step (e : Engine) (op : Op) (h : IdsInv e) : IdsInv (step e op) := by
  unfold IdsInv at h ⊢
  cases op with
  | register username =>
    simp only [step, RegisterUser, List.map_append, List.length_append]
    rw [h]
    simp [List.range'_1_concat, Nat.add_comm]
  | createSub name =>
    cases hf : e.SubReddits.find? (fun sr => sr.Name == name) <;>
      simpa [step, CreateSubReddit, hf] using h
  | join uid name =>
    cases hf : e.SubReddits.find? (fun sr => sr.Name == name) <;>
      simpa [step, JoinSubReddit, hf, map_id_bumpActions, length_bumpActions] using h
  | leave uid name =>
    cases hf : e.SubReddits.find? (fun sr => sr.Name == name) <;>
      simpa [step, LeaveSubReddit, hf, map_id_bumpActions, length_bumpActions] using h
  | createPost uid name content =>
    cases hf : e.SubReddits.find? (fun sr => sr.Name == name) <;>
      simpa [step, CreatePost, hf, map_id_bumpActions, length_bumpActions] using h
  | repost uid original name =>
    cases hf : e.SubReddits.find? (fun sr => sr.Name == name) <;>
      simpa [step, CreateRepost, hf, map_id_bumpActions, length_bumpActions] using h
  | comment uid pid content =>
    simpa [step, CommentPost, map_id_bumpActions, length_bumpActions] using h
  | reply uid parentCell content =>
    simpa [step, AddReplyToComment, map_id_bumpActions, length_bumpActions] using h
  | upvote pid =>
    cases hfp : findPost e.SubReddits pid <;>
      simpa [step, UpvotePost, hfp, map_id_bumpKarma, length_bumpKarma] using h
  | downvote pid =>
    cases hfp : findPost e.SubReddits pid <;>
      simpa [step, DownvotePost, hfp, map_id_bumpKarma, length_bumpKarma] using h
  | message fromId toId content =>
    simpa [step, SendDirectMessage, map_id_bumpActions, length_bumpActions] using h
  | replyMsg uid original content =>
    simpa [step, ReplyToMessage, SendDirectMessage, map_id_bumpActions,
      length_bumpActions] using h

theorem ids_inv_run (ops : List Op) :
    ∀ e : Engine, IdsInv e → IdsInv (Run e ops) := by
  induction ops with
  | nil => intro e h; exact h
  | cons op ops ih => intro e h; exact ih (step e op) (ids_inv_step e op h)

theorem sum_bumpActions (l : List User) (uid : Nat) :
    ((bumpActions l uid).map (fun u => u.Actions)).sum
      = (l.map (fun u => u.Actions)).sum + l.countP (fun u => u.ID == uid) := by
  induction l with
  | nil => simp [bumpActions]
  | cons u rest ih =>
    have hcons : bumpActions (u :: rest) uid
        = (if u.ID = uid then { u with Actions := u.Actions + 1 } else u)
          :: bumpActions rest uid := rfl
    rw [hcons, List.map_cons, List.sum_cons, List.map_cons, List.sum_cons,
      List.countP_cons, ih]
    by_cases h : u.ID = uid
    · subst h
      simp
      omega
    · have hne : (u.ID == uid) = false := by simpa using h
      simp [h, hne]
      omega

theorem sum_bumpKarma (l : List User) (uid : Nat) (d : Int) :
    ((bumpKarma l uid d).map (fun u => u.Actions)).sum
      = (l.map (fun u => u.Actions)).sum := by
  induction l with
  | nil => simp [bumpKarma]
  | cons u rest ih =>
    have hcons : bumpKarma (u :: rest) uid d
        = (if u.ID = uid then { u with Karma := u.Karma + d } else u)
          :: bumpKarma rest uid d := rfl
    rw [hcons, List.map_cons, List.sum_cons, List.map_cons, List.sum_cons, ih]
    by_cases h : u.ID = uid <;> simp [h]

theorem countP_id_zero (l : List User) (uid : Nat)
    (h : uid ∉ l.map (fun u => u.ID)) :
    l.countP (fun u => u.ID == uid) = 0 := by
  induction l with
  | nil => simp
  | cons u rest ih =>
    simp only [List.map_cons, List.mem_cons] at h
    push_neg at h
    simp only [List.countP_cons]
    have hne : (u.ID == uid) = false := by
      simpa using fun hEq => h.1 hEq.symm
    simp [hne, ih h.2]

theorem countP_id_one (l : List User) (uid : Nat)
    (hnd : (l.map (fun u => u.ID)).Nodup)
    (hs : (l.find? (fun u => u.ID == uid)).isSome = true) :
    l.countP (fun u => u.ID == uid) = 1 := by
  induction l with
  | nil => simp at hs
  | cons u rest ih =>
    simp only [List.map_cons, List.nodup_cons] at hnd
    by_cases h : u.ID = uid
    · have hz : rest.countP (fun v => v.ID == uid) = 0 :=
        countP_id_zero rest uid (h ▸ hnd.1)
      simp [List.countP_cons, h, hz]
    · have hne : (u.ID == uid) = false := by simpa using h
      rw [List.find?_cons_of_neg _ (by simp [h])] at hs
      simp [List.countP_cons, hne, ih hnd.2 hs]

theorem ids_nodup (e : Engine) (h : IdsInv e) :
    (e.Users.map (fun u => u.ID)).Nodup := by
  rw [h]
  exact List.nodup_range' _ _

theorem sum_bumpActions_hasUser (e : Engine) (uid : Nat)
    (hids : IdsInv e) (hs : hasUser e uid = true) :
    ((bumpActions e.Users uid).map (fun u => u.Actions)).sum
      = (e.Users.map (fun u => u.Actions)).sum + 1 := by
  rw [sum_bumpActions]
  rw [countP_id_one e.Users uid (ids_nodup e hids) hs]

theorem actions_inv_step (e : Engine) (op : Op) (hwf : Op.wf e op = true)
    (hids : IdsInv e)
    (h : e.TotalActions = sumActions e + e.TotalVotes) :
    (step e op).TotalActions = sumActions (step e op) + (step e op).TotalVotes := by
  cases op with
  | register username =>
    simp only [step, RegisterUser, sumActions] at h ⊢
    simp [h]
  | createSub name =>
    cases hf : e.SubReddits.find? (fun sr => sr.Name == name) <;>
      simpa [step, CreateSubReddit, hf, sumActions] using h
  | join uid name =>
    have hb := sum_bumpActions_hasUser e uid hids (by simpa [Op.wf] using hwf)
    cases hf : e.SubReddits.find? (fun sr => sr.Name == name) with
    | none => simpa [step, JoinSubReddit, hf, sumActions] using h
    | some sr =>
      simp only [step, JoinSubReddit, hf, sumActions] at h ⊢
      rw [hb]
      omega
  | leave uid name =>
    have hb := sum_bumpActions_hasUser e uid hids (by simpa [Op.wf] using hwf)
    cases hf : e.SubReddits.find? (fun sr => sr.Name == name) with
    | none => simpa [step, LeaveSubReddit, hf, sumActions] using h
    | some sr =>
      simp only [step, LeaveSubReddit, hf, sumActions] at h ⊢
      rw [hb]
      omega
  | createPost uid name content =>
    have hb := sum_bumpActions_hasUser e uid hids (by simpa [Op.wf] using hwf)
    cases hf : e.SubReddits.find? (fun sr => sr.Name == name) with
    | none => simpa [step, CreatePost, hf, sumActions] using h
    | some sr =>
      simp only [step, CreatePost, hf, sumActions] at h ⊢
      rw [hb]
      omega
  | repost uid original name =>
    have hb := sum_bumpActions_hasUser e uid hids (by simpa [Op.wf] using hwf)
    cases hf : e.SubReddits.find? (fun sr => sr.Name == name) with
    | none => simpa [step, CreateRepost, hf, sumActions] using h
    | some sr =>
      simp only [step, CreateRepost, hf, sumActions] at h ⊢
      rw [hb]
      omega
  | comment uid pid content =>
    have hb := sum_bumpActions_hasUser e uid hids (by simpa [Op.wf] using hwf)
    simp only [step, CommentPost, sumActions] at h ⊢
    rw [hb]
    omega
  | reply uid parentCell content =>
    have hb := sum_bumpActions_hasUser e uid hids (by simpa [Op.wf] using hwf)
    simp only [step, AddReplyToComment, sumActions] at h ⊢
    rw [hb]
    omega
  | upvote pid =>
    cases hfp : findPost e.SubReddits pid with
    | none => simp only [step, UpvotePost, hfp, sumActions] at h ⊢; omega
    | some p =>
      simp only [step, UpvotePost, hfp, sumActions] at h ⊢
      rw [sum_bumpKarma]
      omega
  | downvote pid =>
    cases hfp : findPost e.SubReddits pid with
    | none => simp only [step, DownvotePost, hfp, sumActions] at h ⊢; omega
    | some p =>
      simp only [step, DownvotePost, hfp, sumActions] at h ⊢
      rw [sum_bumpKarma]
      omega
  | message fromId toId content =>
    have hb := sum_bumpActions_hasUser e fromId hids (by simpa [Op.wf] using hwf)
    simp only [step, SendDirectMessage, sumActions] at h ⊢
    rw [hb]
    omega
  | replyMsg uid original content =>
    have hb := sum_bumpActions_hasUser e uid hids (by simpa [Op.wf] using hwf)
    simp only [step, ReplyToMessage, SendDirectMessage, sumActions] at h ⊢
    rw [hb]
    omega

theorem actions_inv_run (ops : List Op) :
    ∀ e : Engine, ValidTrace e ops = true → IdsInv e →
      e.TotalActions = sumActions e + e.TotalVotes →
      (Run e ops).TotalActions = sumActions (Run e ops) + (Run e ops).TotalVotes := by
  induction ops with
  | nil => intro e _ _ h; exact h
  | cons op ops ih =>
    intro e hv hids h
    have hv' : Op.wf e op = true ∧ ValidTrace (step e op) ops = true := by
      simpa [ValidTrace, Bool.and_eq_true] using hv
    exact ih (step e op) hv'.2 (ids_inv_step e op hids)
      (actions_inv_step e op hv'.1 hids h)

/-- C1 as stated is false on the code: after the concrete trace create
community, register a user, create a post and upvote it, TotalActions is 2
while the only registered user has Actions = 1, because UpvotePost increments
TotalActions without incrementing any user Actions counter. -/
theorem c1_counterexample :
    (Run NewEngine opsCe1).TotalActions ≠ sumActions (Run NewEngine opsCe1) := by
  decide

/-- C1 amended: along any supported trace (every user argument a registered
user), TotalActions equals the sum of all per-user Actions counters plus
TotalVotes: each non-vote mutating operation increments exactly one user
Actions counter and the global total together, while UpvotePost and
DownvotePost increment only the global total (and TotalVotes), crediting no
user. -/
theorem c1_totalActions_amended (ops : List Op)
    (h : ValidTrace NewEngine ops = true) :
    (Run NewEngine ops).TotalActions
      = sumActions (Run NewEngine ops) + (Run NewEngine ops).TotalVotes :=
  actions_inv_run ops NewEngine h (by simp [IdsInv, NewEngine]) rfl

theorem c1_totalActions_amended_witness :
    ValidTrace NewEngine opsW1 = true ∧
    (Run NewEngine opsW1).TotalActions
      = sumActions (Run NewEngine opsW1) + (Run NewEngine opsW1).TotalVotes :=
  ⟨by decide, c1_totalActions_amended opsW1 (by decide)⟩

theorem find?_map_idpred (l : List User) (f : User → User)
    (hID : ∀ u, (f u).ID = u.ID) (uid : Nat) :
    (l.map f).find? (fun u => u.ID == uid) = (l.find? (fun u => u.ID == uid)).map f := by
  induction l with
  | nil => rfl
  | cons u rest ih =>
    rw [List.map_cons]
    by_cases h : u.ID = uid
    · rw [List.find?_cons_of_pos _ (by simp [hID, h]),
        List.find?_cons_of_pos _ (by simp [h])]
      rfl
    · rw [List.find?_cons_of_neg _ (by simp [hID, h]),
        List.find?_cons_of_neg _ (by simp [h])]
      exact ih

theorem karmaOfUsers_map (l : List User) (f : User → User)
    (hID : ∀ u, (f u).ID = u.ID) (hK : ∀ u, (f u).Karma = u.Karma) (uid : Nat) :
    karmaOfUsers (l.map f) uid = karmaOfUsers l uid := by
  unfold karmaOfUsers findUser
  rw [find?_map_idpred l f hID uid]
  cases l.find? (fun u => u.ID == uid) <;> simp [hK]

theorem karmaOfUsers_bumpActions (l : List User) (uid' uid : Nat) :
    karmaOfUsers (bumpActions l uid') uid = karmaOfUsers l uid := by
  unfold bumpActions
  exact karmaOfUsers_map l _
    (fun u => by by_cases h : u.ID = uid' <;> simp [h])
    (fun u => by by_cases h : u.ID = uid' <;> simp [h]) uid

theorem karmaOfUsers_append_zero (l : List User) (u0 : User)
    (h : u0.Karma = 0) (uid : Nat) :
    karmaOfUsers (l ++ [u0]) uid = karmaOfUsers l uid := by
  unfold karmaOfUsers findUser
  rw [List.find?_append]
  cases hf : l.find? (fun u => u.ID == uid) with
  | some u => simp
  | none =>
    cases hf2 : [u0].find? (fun u => u.ID == uid) with
    | none => simp [Option.or]
    | some v =>
      have hv : v = u0 := by
        have := List.mem_of_find?_eq_some hf2
        simpa using this
      subst hv
      simp [Option.or, h]

theorem karmaOfUsers_bumpKarma (l : List User) (aid : Nat) (d : Int) (uid : Nat)
    (ha : aid = uid → (l.find? (fun u => u.ID == uid)).isSome = true) :
    karmaOfUsers (bumpKarma l aid d) uid
      = karmaOfUsers l uid + (if aid = uid then d else 0) := by
  unfold bumpKarma karmaOfUsers findUser
  rw [find?_map_idpred l _ (fun u => by by_cases h : u.ID = aid <;> simp [h]) uid]
  cases hf : l.find? (fun u => u.ID == uid) with
  | none =>
    have hne : ¬aid = uid := by
      intro hEq
      have := ha hEq
      rw [hf] at this
      simp at this
    simp [hne]
  | some u =>
    have hu : u.ID = uid := by
      have := List.find?_some hf
      simpa using this
    by_cases h : aid = uid
    · have : u.ID = aid := by omega
      simp [this, h]
    · have : ¬u.ID = aid := by omega
      simp [this, h]

theorem findPost_mem (subs : List SubReddit) (pid : Nat) (p : Post)
    (h : findPost subs pid = some p) : ∃ sr ∈ subs, p ∈ sr.Posts := by
  unfold findPost at h
  have hm := List.mem_of_find?_eq_some h
  obtain ⟨l, hl, hpl⟩ := List.mem_flatten.mp hm
  obtain ⟨sr, hsr, rfl⟩ := List.mem_map.mp hl
  exact ⟨sr, hsr, hpl⟩

theorem hasUser_monotone (l l' : List User) (uid : Nat)
    (hm : (l'.find? (fun u => u.ID == uid)).isSome
      = (l.find? (fun u => u.ID == uid)).isSome)
    (h : (l.find? (fun u => u.ID == uid)).isSome = true) :
    (l'.find? (fun u => u.ID == uid)).isSome = true := by
  rw [hm]; exact h

theorem isSome_find?_map (l : List User) (f : User → User)
    (hID : ∀ u, (f u).ID = u.ID) (uid : Nat) :
    ((l.map f).find? (fun u => u.ID == uid)).isSome
      = (l.find? (fun u => u.ID == uid)).isSome := by
  rw [find?_map_idpred l f hID uid]
  cases l.find? (fun u => u.ID == uid) <;> simp

theorem isSome_find?_bumpActions (l : List User) (uid' uid : Nat) :
    ((bumpActions l uid').find? (fun u => u.ID == uid)).isSome
      = (l.find? (fun u => u.ID == uid)).isSome := by
  unfold bumpActions
  exact isSome_find?_map l _ (fun u => by by_cases h : u.ID = uid' <;> simp [h]) uid

theorem isSome_find?_bumpKarma (l : List User) (uid' uid : Nat) (d : Int) :
    ((bumpKarma l uid' d).find? (fun u => u.ID == uid)).isSome
      = (l.find? (fun u => u.ID == uid)).isSome := by
  unfold bumpKarma
  exact isSome_find?_map l _ (fun u => by by_cases h : u.ID = uid' <;> simp [h]) uid

theorem isSome_find?_append (l : List User) (u0 : User) (uid : Nat)
    (h : (l.find? (fun u => u.ID == uid)).isSome = true) :
    ((l ++ [u0]).find? (fun u => u.ID == uid)).isSome = true := by
  rw [List.find?_append]
  cases hf : l.find? (fun u => u.ID == uid) with
  | some u => simp [Option.or]
  | none => rw [hf] at h; simp at h

theorem authors_posts_updateSub_preserved (subs : List SubReddit) (name : String)
    (f : SubReddit → SubReddit) (hf : ∀ sr, (f sr).Posts = sr.Posts) :
    ∀ sr' ∈ updateSub subs name f, ∀ q ∈ sr'.Posts, ∃ sr ∈ subs, q ∈ sr.Posts := by
  intro sr' hsr' q hq
  obtain ⟨sr1, hsr1, hmap⟩ := List.mem_map.mp hsr'
  refine ⟨sr1, hsr1, ?_⟩
  by_cases hn : sr1.Name = name
  · rw [if_pos hn] at hmap; rw [← hmap, hf] at hq; exact hq
  · rw [if_neg hn] at hmap; rw [← hmap] at hq; exact hq

theorem authors_posts_updateSub_append (subs : List SubReddit) (name : String)
    (newp : Post) :
    ∀ sr' ∈ updateSub subs name (fun sr => { sr with Posts := sr.Posts ++ [newp] }),
      ∀ q ∈ sr'.Posts, (∃ sr ∈ subs, q ∈ sr.Posts) ∨ q = newp := by
  intro sr' hsr' q hq
  obtain ⟨sr1, hsr1, hmap⟩ := List.mem_map.mp hsr'
  by_cases hn : sr1.Name = name
  · rw [if_pos hn] at hmap
    rw [← hmap] at hq
    rcases List.mem_append.mp hq with h1 | h2
    · exact Or.inl ⟨sr1, hsr1, h1⟩
    · exact Or.inr (by simpa using h2)
  · rw [if_neg hn] at hmap
    rw [← hmap] at hq
    exact Or.inl ⟨sr1, hsr1, hq⟩

theorem authors_posts_updatePost (subs : List SubReddit) (pid : Nat)
    (f : Post → Post) (hfa : ∀ p, (f p).AuthorID = p.AuthorID) :
    ∀ sr' ∈ updatePost subs pid f, ∀ q ∈ sr'.Posts,
      ∃ sr ∈ subs, ∃ p ∈ sr.Posts, q.AuthorID = p.AuthorID := by
  intro sr' hsr' q hq
  obtain ⟨sr1, hsr1, hmap⟩ := List.mem_map.mp hsr'
  rw [← hmap] at hq
  have hq' : q ∈ sr1.Posts.map (fun p => if p.ID = pid then f p else p) := hq
  obtain ⟨p, hp, hpq⟩ := List.mem_map.mp hq'
  refine ⟨sr1, hsr1, p, hp, ?_⟩
  by_cases hid : p.ID = pid
  · rw [if_pos hid] at hpq; rw [← hpq, hfa]
  · rw [if_neg hid] at hpq; rw [← hpq]

theorem authors_valid_step (e : Engine) (op : Op) (hwf : Op.wf e op = true)
    (h : AuthorsValid e) : AuthorsValid (step e op) := by
  cases op with
  | register username =>
    intro sr hsr q hq
    exact isSome_find?_append e.Users _ q.AuthorID (h sr hsr q hq)
  | createSub name =>
    cases hf : e.SubReddits.find? (fun sr => sr.Name == name) with
    | some sr0 =>
      have hstep : step e (Op.createSub name) = e := by
        simp [step, CreateSubReddit, hf]
      rw [hstep]; exact h
    | none =>
      have hstep : step e (Op.createSub name)
          = { e with SubReddits := e.SubReddits ++ [⟨name, [], []⟩] } := by
        simp [step, CreateSubReddit, hf]
      rw [hstep]
      intro sr hsr q hq
      rcases List.mem_append.mp hsr with hin | hnew
      · exact h sr hin q hq
      · have hsr2 : sr = (⟨name, [], []⟩ : SubReddit) := by simpa using hnew
        rw [hsr2] at hq
        simp at hq
  | join uid name =>
    cases hf : e.SubReddits.find? (fun sr => sr.Name == name) with
    | none =>
      have hstep : step e (Op.join uid name) = e := by simp [step, JoinSubReddit, hf]
      rw [hstep]; exact h
    | some sr0 =>
      have hstep : step e (Op.join uid name)
          = { e with
              SubReddits := updateSub e.SubReddits name
                (fun sr => { sr with Users := insertMember sr.Users uid }),
              Users := bumpActions e.Users uid,
              TotalActions := e.TotalActions + 1 } := by
        simp [step, JoinSubReddit, hf]
      rw [hstep]
      intro sr hsr q hq
      obtain ⟨sr1, hsr1, hq1⟩ := authors_posts_updateSub_preserved e.SubReddits name
        (fun sr => { sr with Users := insertMember sr.Users uid })
        (fun _ => rfl) sr hsr q hq
      have hex := h sr1 hsr1 q hq1
      show ((bumpActions e.Users uid).find? (fun u => u.ID == q.AuthorID)).isSome = true
      rw [isSome_find?_bumpActions]
      exact hex
  | leave uid name =>
    cases hf : e.SubReddits.find? (fun sr => sr.Name == name) with
    | none =>
      have hstep : step e (Op.leave uid name) = e := by simp [step, LeaveSubReddit, hf]
      rw [hstep]; exact h
    | some sr0 =>
      have hstep : step e (Op.leave uid name)
          = { e with
              SubReddits := updateSub e.SubReddits name
                (fun sr => { sr with Users := removeMember sr.Users uid }),
              Users := bumpActions e.Users uid,
              TotalActions := e.TotalActions + 1 } := by
        simp [step, LeaveSubReddit, hf]
      rw [hstep]
      intro sr hsr q hq
      obtain ⟨sr1, hsr1, hq1⟩ := authors_posts_updateSub_preserved e.SubReddits name
        (fun sr => { sr with Users := removeMember sr.Users uid })
        (fun _ => rfl) sr hsr q hq
      have hex := h sr1 hsr1 q hq1
      show ((bumpActions e.Users uid).find? (fun u => u.ID == q.AuthorID)).isSome = true
      rw [isSome_find?_bumpActions]
      exact hex
  | createPost uid name content =>
    cases hf : e.SubReddits.find? (fun sr => sr.Name == name) with
    | none =>
      have hstep : step e (Op.createPost uid name content) = e := by
        simp [step, CreatePost, hf]
      rw [hstep]; exact h
    | some sr0 =>
      have hstep : step e (Op.createPost uid name content)
          = { e with
              SubReddits := updateSub e.SubReddits name
                (fun sr => { sr with Posts := sr.Posts ++ [⟨e.PostID, uid, content, [], 0⟩] }),
              PostID := e.PostID + 1,
              TotalPosts := e.TotalPosts + 1,
              ActionBreakdown :=
                { e.ActionBreakdown with Posts := e.ActionBreakdown.Posts + 1 },
              Users := bumpActions e.Users uid,
              TotalActions := e.TotalActions + 1 } := by
        simp [step, CreatePost, hf]
      rw [hstep]
      intro sr hsr q hq
      show ((bumpActions e.Users uid).find? (fun u => u.ID == q.AuthorID)).isSome = true
      rw [isSome_find?_bumpActions]
      rcases authors_posts_updateSub_append e.SubReddits name
        ⟨e.PostID, uid, content, [], 0⟩ sr hsr q hq with ⟨sr1, hsr1, hq1⟩ | hnew
      · exact h sr1 hsr1 q hq1
      · rw [hnew]
        simpa [Op.wf, hasUser, findUser] using hwf
  | repost uid original name =>
    cases hf : e.SubReddits.find? (fun sr => sr.Name == name) with
    | none =>
      have hstep : step e (Op.repost uid original name) = e := by
        simp [step, CreateRepost, hf]
      rw [hstep]; exact h
    | some sr0 =>
      have hstep : step e (Op.repost uid original name)
          = { e with
              SubReddits := updateSub e.SubReddits name
                (fun sr => { sr with
                  Posts := sr.Posts ++ [⟨e.PostID, uid, original.Content, [], 0⟩] }),
              PostID := e.PostID + 1,
              TotalPosts := e.TotalPosts + 1,
              ActionBreakdown :=
                { e.ActionBreakdown with Posts := e.ActionBreakdown.Posts + 1 },
              Users := bumpActions e.Users uid,
              TotalActions := e.TotalActions + 1 } := by
        simp [step, CreateRepost, hf]
      rw [hstep]
      intro sr hsr q hq
      show ((bumpActions e.Users uid).find? (fun u => u.ID == q.AuthorID)).isSome = true
      rw [isSome_find?_bumpActions]
      rcases authors_posts_updateSub_append e.SubReddits name
        ⟨e.PostID, uid, original.Content, [], 0⟩ sr hsr q hq with ⟨sr1, hsr1, hq1⟩ | hnew
      · exact h sr1 hsr1 q hq1
      · rw [hnew]
        simpa [Op.wf, hasUser, findUser] using hwf
  | comment uid pid content =>
    intro sr hsr q hq
    obtain ⟨sr1, hsr1, p, hp, hqa⟩ := authors_posts_updatePost e.SubReddits pid
      (fun p => { p with
        Comments := p.Comments ++ [Comment.mk e.CommentID uid content [] 0] })
      (fun _ => rfl) sr hsr q hq
    have hex := h sr1 hsr1 p hp
    show ((bumpActions e.Users uid).find? (fun u => u.ID == q.AuthorID)).isSome = true
    rw [isSome_find?_bumpActions, hqa]
    exact hex
  | reply uid parentCell content =>
    intro sr hsr q hq
    have hex := h sr hsr q hq
    show ((bumpActions e.Users uid).find? (fun u => u.ID == q.AuthorID)).isSome = true
    rw [isSome_find?_bumpActions]
    exact hex
  | upvote pid =>
    have hSub : (step e (Op.upvote pid)).SubReddits
        = updatePost e.SubReddits pid (fun p => { p with Votes := p.Votes + 1 }) := rfl
    intro sr hsr q hq
    rw [hSub] at hsr
    obtain ⟨sr1, hsr1, p, hp, hqa⟩ := authors_posts_updatePost e.SubReddits pid
      (fun p => { p with Votes := p.Votes + 1 }) (fun _ => rfl) sr hsr q hq
    have hex := h sr1 hsr1 p hp
    cases hfp : findPost e.SubReddits pid with
    | none =>
      have hUsers : (step e (Op.upvote pid)).Users = e.Users := by
        simp [step, UpvotePost, hfp]
      show ((step e (Op.upvote pid)).Users.find? (fun u => u.ID == q.AuthorID)).isSome = true
      rw [hUsers, hqa]
      exact hex
    | some p0 =>
      have hUsers : (step e (Op.upvote pid)).Users = bumpKarma e.Users p0.AuthorID 1 := by
        simp [step, UpvotePost, hfp]
      show ((step e (Op.upvote pid)).Users.find? (fun u => u.ID == q.AuthorID)).isSome = true
      rw [hUsers, isSome_find?_bumpKarma, hqa]
      exact hex
  | downvote pid =>
    have hSub : (step e (Op.downvote pid)).SubReddits
        = updatePost e.SubReddits pid (fun p => { p with Votes := p.Votes - 1 }) := rfl
    intro sr hsr q hq
    rw [hSub] at hsr
    obtain ⟨sr1, hsr1, p, hp, hqa⟩ := authors_posts_updatePost e.SubReddits pid
      (fun p => { p with Votes := p.Votes - 1 }) (fun _ => rfl) sr hsr q hq
    have hex := h sr1 hsr1 p hp
    cases hfp : findPost e.SubReddits pid with
    | none =>
      have hUsers : (step e (Op.downvote pid)).Users = e.Users := by
        simp [step, DownvotePost, hfp]
      show ((step e (Op.downvote pid)).Users.find? (fun u => u.ID == q.AuthorID)).isSome = true
      rw [hUsers, hqa]
      exact hex
    | some p0 =>
      have hUsers : (step e (Op.downvote pid)).Users
          = bumpKarma e.Users p0.AuthorID (-1) := by
        simp [step, DownvotePost, hfp]
      show ((step e (Op.downvote pid)).Users.find? (fun u => u.ID == q.AuthorID)).isSome = true
      rw [hUsers, isSome_find?_bumpKarma, hqa]
      exact hex
  | message fromId toId content =>
    intro sr hsr q hq
    have hex := h sr hsr q hq
    show ((bumpActions e.Users fromId).find? (fun u => u.ID == q.AuthorID)).isSome = true
    rw [isSome_find?_bumpActions]
    exact hex
  | replyMsg uid original content =>
    intro sr hsr q hq
    have hex := h sr hsr q hq
    show ((bumpActions e.Users uid).find? (fun u => u.ID == q.AuthorID)).isSome = true
    rw [isSome_find?_bumpActions]
    exact hex

theorem karmaOf_step (e : Engine) (op : Op) (ha : AuthorsValid e) (uid : Nat) :
    karmaOf (step e op) uid = karmaOf e uid +
      (match op with
        | .upvote pid => if authorOf e pid = some uid then 1 else 0
        | .downvote pid => if authorOf e pid = some uid then -1 else 0
        | _ => (0 : Int)) := by
  cases op with
  | register username =>
    show karmaOfUsers (e.Users ++ [⟨e.Users.length + 1, username, 0, 0, true⟩]) uid
      = karmaOfUsers e.Users uid + 0
    rw [karmaOfUsers_append_zero _ _ rfl, add_zero]
  | createSub name =>
    cases hf : e.SubReddits.find? (fun sr => sr.Name == name) with
    | some sr0 =>
      have hU : (step e (Op.createSub name)).Users = e.Users := by
        simp [step, CreateSubReddit, hf]
      show karmaOfUsers (step e (Op.createSub name)).Users uid
        = karmaOfUsers e.Users uid + 0
      rw [hU, add_zero]
    | none =>
      have hU : (step e (Op.createSub name)).Users = e.Users := by
        simp [step, CreateSubReddit, hf]
      show karmaOfUsers (step e (Op.createSub name)).Users uid
        = karmaOfUsers e.Users uid + 0
      rw [hU, add_zero]
  | join uid' name =>
    cases hf : e.SubReddits.find? (fun sr => sr.Name == name) with
    | none =>
      have hU : (step e (Op.join uid' name)).Users = e.Users := by
        simp [step, JoinSubReddit, hf]
      show karmaOfUsers (step e (Op.join uid' name)).Users uid
        = karmaOfUsers e.Users uid + 0
      rw [hU, add_zero]
    | some sr0 =>
      have hU : (step e (Op.join uid' name)).Users = bumpActions e.Users uid' := by
        simp [step, JoinSubReddit, hf]
      show karmaOfUsers (step e (Op.join uid' name)).Users uid
        = karmaOfUsers e.Users uid + 0
      rw [hU, karmaOfUsers_bumpActions, add_zero]
  | leave uid' name =>
    cases hf : e.SubReddits.find? (fun sr => sr.Name == name) with
    | none =>
      have hU : (step e (Op.leave uid' name)).Users = e.Users := by
        simp [step, LeaveSubReddit, hf]
      show karmaOfUsers (step e (Op.leave uid' name)).Users uid
        = karmaOfUsers e.Users uid + 0
      rw [hU, add_zero]
    | some sr0 =>
      have hU : (step e (Op.leave uid' name)).Users = bumpActions e.Users uid' := by
        simp [step, LeaveSubReddit, hf]
      show karmaOfUsers (step e (Op.leave uid' name)).Users uid
        = karmaOfUsers e.Users uid + 0
      rw [hU, karmaOfUsers_bumpActions, add_zero]
  | createPost uid' name content =>
    cases hf : e.SubReddits.find? (fun sr => sr.Name == name) with
    | none =>
      have hU : (step e (Op.createPost uid' name content)).Users = e.Users := by
        simp [step, CreatePost, hf]
      show karmaOfUsers (step e (Op.createPost uid' name content)).Users uid
        = karmaOfUsers e.Users uid + 0
      rw [hU, add_zero]
    | some sr0 =>
      have hU : (step e (Op.createPost uid' name content)).Users
          = bumpActions e.Users uid' := by
        simp [step, CreatePost, hf]
      show karmaOfUsers (step e (Op.createPost uid' name content)).Users uid
        = karmaOfUsers e.Users uid + 0
      rw [hU, karmaOfUsers_bumpActions, add_zero]
  | repost uid' original name =>
    cases hf : e.SubReddits.find? (fun sr => sr.Name == name) with
    | none =>
      have hU : (step e (Op.repost uid' original name)).Users = e.Users := by
        simp [step, CreateRepost, hf]
      show karmaOfUsers (step e (Op.repost uid' original name)).Users uid
        = karmaOfUsers e.Users uid + 0
      rw [hU, add_zero]
    | some sr0 =>
      have hU : (step e (Op.repost uid' original name)).Users
          = bumpActions e.Users uid' := by
        simp [step, CreateRepost, hf]
      show karmaOfUsers (step e (Op.repost uid' original name)).Users uid
        = karmaOfUsers e.Users uid + 0
      rw [hU, karmaOfUsers_bumpActions, add_zero]
  | comment uid' pid content =>
    show karmaOfUsers (bumpActions e.Users uid') uid = karmaOfUsers e.Users uid + 0
    rw [karmaOfUsers_bumpActions, add_zero]
  | reply uid' parentCell content =>
    show karmaOfUsers (bumpActions e.Users uid') uid = karmaOfUsers e.Users uid + 0
    rw [karmaOfUsers_bumpActions, add_zero]
  | upvote pid =>
    cases hfp : findPost e.SubReddits pid with
    | none =>
      have hU : (step e (Op.upvote pid)).Users = e.Users := by
        simp [step, UpvotePost, hfp]
      have hAuth : authorOf e pid = none := by simp [authorOf, hfp]
      show karmaOfUsers (step e (Op.upvote pid)).Users uid
        = karmaOfUsers e.Users uid + (if authorOf e pid = some uid then 1 else 0)
      rw [hU, hAuth]
      simp
    | some p0 =>
      have hU : (step e (Op.upvote pid)).Users = bumpKarma e.Users p0.AuthorID 1 := by
        simp [step, UpvotePost, hfp]
      have hAuth : authorOf e pid = some p0.AuthorID := by simp [authorOf, hfp]
      have hreg : p0.AuthorID = uid →
          (e.Users.find? (fun u => u.ID == uid)).isSome = true := by
        intro hEq
        obtain ⟨sr, hsr, hp⟩ := findPost_mem e.SubReddits pid p0 hfp
        have hh := ha sr hsr p0 hp
        rw [hEq] at hh
        exact hh
      show karmaOfUsers (step e (Op.upvote pid)).Users uid
        = karmaOfUsers e.Users uid + (if authorOf e pid = some uid then 1 else 0)
      rw [hU, hAuth, karmaOfUsers_bumpKarma e.Users p0.AuthorID 1 uid hreg]
      by_cases hcc : p0.AuthorID = uid <;> simp [hcc]
  | downvote pid =>
    cases hfp : findPost e.SubReddits pid with
    | none =>
      have hU : (step e (Op.downvote pid)).Users = e.Users := by
        simp [step, DownvotePost, hfp]
      have hAuth : authorOf e pid = none := by simp [authorOf, hfp]
      show karmaOfUsers (step e (Op.downvote pid)).Users uid
        = karmaOfUsers e.Users uid + (if authorOf e pid = some uid then -1 else 0)
      rw [hU, hAuth]
      simp
    | some p0 =>
      have hU : (step e (Op.downvote pid)).Users
          = bumpKarma e.Users p0.AuthorID (-1) := by
        simp [step, DownvotePost, hfp]
      have hAuth : authorOf e pid = some p0.AuthorID := by simp [authorOf, hfp]
      have hreg : p0.AuthorID = uid →
          (e.Users.find? (fun u => u.ID == uid)).isSome = true := by
        intro hEq
        obtain ⟨sr, hsr, hp⟩ := findPost_mem e.SubReddits pid p0 hfp
        have hh := ha sr hsr p0 hp
        rw [hEq] at hh
        exact hh
      show karmaOfUsers (step e (Op.downvote pid)).Users uid
        = karmaOfUsers e.Users uid + (if authorOf e pid = some uid then -1 else 0)
      rw [hU, hAuth, karmaOfUsers_bumpKarma e.Users p0.AuthorID (-1) uid hreg]
      by_cases hcc : p0.AuthorID = uid <;> simp [hcc]
  | message fromId toId content =>
    show karmaOfUsers (bumpActions e.Users fromId) uid = karmaOfUsers e.Users uid + 0
    rw [karmaOfUsers_bumpActions, add_zero]
  | replyMsg uid' original content =>
    show karmaOfUsers (bumpActions e.Users uid') uid = karmaOfUsers e.Users uid + 0
    rw [karmaOfUsers_bumpActions, add_zero]

theorem karma_run (ops : List Op) :
    ∀ e : Engine, ValidTrace e ops = true → AuthorsValid e → ∀ uid : Nat,
      karmaOf (Run e ops) uid
        = karmaOf e uid + (upCount e ops uid : Int) - (downCount e ops uid : Int) := by
  induction ops with
  | nil => intro e _ _ uid; simp [Run, upCount, downCount]
  | cons op ops ih =>
    intro e hv hA uid
    have hv' : Op.wf e op = true ∧ ValidTrace (step e op) ops = true := by
      simpa [ValidTrace, Bool.and_eq_true] using hv
    have hrec := ih (step e op) hv'.2 (authors_valid_step e op hv'.1 hA) uid
    rw [run_cons, hrec, karmaOf_step e op hA uid]
    cases op with
    | upvote pid =>
      by_cases hc : authorOf e pid = some uid <;>
        (simp only [upCount, downCount, hc, if_true, if_false]; push_cast; ring)
    | downvote pid =>
      by_cases hc : authorOf e pid = some uid <;>
        (simp only [upCount, downCount, hc, if_true, if_false]; push_cast; ring)
    | register username =>
      simp only [upCount, downCount]; push_cast; ring
    | createSub name =>
      simp only [upCount, downCount]; push_cast; ring
    | join uid' name =>
      simp only [upCount, downCount]; push_cast; ring
    | leave uid' name =>
      simp only [upCount, downCount]; push_cast; ring
    | createPost uid' name content =>
      simp only [upCount, downCount]; push_cast; ring
    | repost uid' original name =>
      simp only [upCount, downCount]; push_cast; ring
    | comment uid' pid content =>
      simp only [upCount, downCount]; push_cast; ring
    | reply uid' parentCell content =>
      simp only [upCount, downCount]; push_cast; ring
    | message fromId toId content =>
      simp only [upCount, downCount]; push_cast; ring
    | replyMsg uid' original content =>
      simp only [upCount, downCount]; push_cast; ring

theorem find?_of_mem_nodup (l : List User)
    (hnd : (l.map (fun u => u.ID)).Nodup) (u : User) (hu : u ∈ l) :
    l.find? (fun v => v.ID == u.ID) = some u := by
  induction l with
  | nil => cases hu
  | cons v rest ih =>
    rw [List.map_cons, List.nodup_cons] at hnd
    rcases List.mem_cons.mp hu with rfl | hur
    · exact List.find?_cons_of_pos _ (by simp)
    · by_cases h : v.ID = u.ID
      · exact absurd (h ▸ List.mem_map.mpr ⟨u, hur, rfl⟩) hnd.1
      · rw [List.find?_cons_of_neg _ (by simp [h])]
        exact ih hnd.2 hur

/-- C3: along any supported trace from NewEngine, every registered user has
Karma equal to the number of upvote operations applied to stored posts they
authored minus the number of downvote operations applied to stored posts
they authored; karma starts at 0 at registration and only the two vote
operations ever change it, by exactly plus or minus one on the author of the
voted post. -/
theorem c3_karma_netvotes (ops : List Op)
    (h : ValidTrace NewEngine ops = true) :
    ∀ u ∈ (Run NewEngine ops).Users,
      u.Karma = (upCount NewEngine ops u.ID : Int)
        - (downCount NewEngine ops u.ID : Int) := by
  intro u hu
  have hids : IdsInv (Run NewEngine ops) :=
    ids_inv_run ops NewEngine (by simp [IdsInv, NewEngine])
  have hnd : ((Run NewEngine ops).Users.map (fun v => v.ID)).Nodup :=
    ids_nodup _ hids
  have hA0 : AuthorsValid NewEngine := by
    intro sr hsr q hq
    simp [NewEngine] at hsr
  have hk := karma_run ops NewEngine h hA0 u.ID
  have h0 : karmaOf NewEngine u.ID = 0 := rfl
  rw [h0] at hk
  have hfind := find?_of_mem_nodup (Run NewEngine ops).Users hnd u hu
  have hko : karmaOf (Run NewEngine ops) u.ID = u.Karma := by
    unfold karmaOf karmaOfUsers findUser
    rw [hfind]
  rw [hko] at hk
  omega

theorem c3_karma_netvotes_witness :
    ValidTrace NewEngine opsW3 = true ∧
    ∀ u ∈ (Run NewEngine opsW3).Users,
      u.Karma = (upCount NewEngine opsW3 u.ID : Int)
        - (downCount NewEngine opsW3 u.ID : Int) :=
  ⟨by decide, c3_karma_netvotes opsW3 (by decide)⟩

end RedditClone
